import Mathlib

/-!
# influxNetResponder: the TCP/UDP probe of `net_reponse.go`

A shallow embedding of `NetResponse.gather`, `NetResponse.tcpGather` and
`NetResponse.udpGather`, followed by theorems about the results they hand to the
metric accumulator.

Conventions of the embedding:

* Go strings are Lean `String`s (well-formed text).
* A Go `map[string]V` is an association list with unique keys (`GoMap`); assignment
  `m[k] = v` is `GoMap.set`, a lookup is `GoMap.get`.
* `time.Duration` values are `Int` nanoseconds.  The `float64` stored in
  `response_time` is kept as the elapsed duration it was computed from.
* The network and the clock are a parameter (`Network`): every call into package `net`
  and every `time.Since(start)` reads its result from it.
* A Go function that may panic returns `Option`; `gather` reports `Return.panic`.
* The metric accumulator is the trace of `AddValues` / `AddTags` calls made on it.
-/

namespace NetResponder

/-! ## Go maps -/

/-- A Go `map[string]V`: an association list, keys unique. -/
abbrev GoMap (V : Type) := List (String × V)

namespace GoMap

/-- The lookup `m[k]` with its presence flag. -/
def get {V : Type} : GoMap V → String → Option V
  | [], _ => none
  | (k', v) :: rest, k => if k' = k then some v else get rest k

/-- The assignment `m[k] = v`. -/
def set {V : Type} : GoMap V → String → V → GoMap V
  | [], k, v => [(k, v)]
  | (k', v') :: rest, k, v => if k' = k then (k, v) :: rest else (k', v') :: set rest k v

/-- The loop `for k, v := range src { dst[k] = v }`. -/
def mergeInto {V : Type} (dst : GoMap V) : GoMap V → GoMap V
  | [] => dst
  | (k, v) :: rest => mergeInto (dst.set k v) rest

end GoMap

/-- A value stored in the `map[string]interface{}` of fields. -/
inductive FieldValue where
  | int (i : Int)
  | str (s : String)
  | bool (b : Bool)
  /-- The `float64` given by `d.Seconds()` for a duration `d` of `ns` nanoseconds. -/
  | seconds (ns : Int)
  deriving DecidableEq, Repr

abbrev Tags := GoMap String
abbrev Fields := GoMap FieldValue

/-! ## `net.SplitHostPort` -/

/-- Index of the first occurrence of `c`, as `strings.IndexByte`. -/
def indexByte : List Char → Char → Option Nat
  | [], _ => none
  | x :: xs, c => if x = c then some 0 else (indexByte xs c).map (· + 1)

/-- Index of the last occurrence of `c`, as `strings.LastIndexByte`. -/
def lastIndexByte : List Char → Char → Option Nat
  | [], _ => none
  | x :: xs, c =>
    match lastIndexByte xs c with
    | some i => some (i + 1)
    | none => if x = c then some 0 else none

/-- The text of a `net.AddrError`. -/
def addrError (addr why : String) : String :=
  if addr ≠ "" then "address " ++ addr ++ ": " ++ why else why

/-- Go's `net.SplitHostPort`: `host:port`, `[host]:port` and their error cases. -/
def SplitHostPort (hostport : String) : Except String (String × String) :=
  let s := hostport.toList
  let missingPort := "missing port in address"
  let tooManyColons := "too many colons in address"
  match lastIndexByte s ':' with
  | none => .error (addrError hostport missingPort)
  | some i =>
    let finish (host : List Char) (j k : Nat) : Except String (String × String) :=
      if (indexByte (s.drop j) '[').isSome then
        .error (addrError hostport "unexpected \x27[\x27 in address")
      else if (indexByte (s.drop k) ']').isSome then
        .error (addrError hostport "unexpected \x27]\x27 in address")
      else .ok (String.mk host, String.mk (s.drop (i + 1)))
    if s.head? = some '[' then
      match indexByte s ']' with
      | none => .error (addrError hostport "missing \x27]\x27 in address")
      | some e =>
        if e + 1 = s.length then .error (addrError hostport missingPort)
        else if e + 1 = i then finish ((s.drop 1).take (e - 1)) 1 (e + 1)
        else if (s.drop (e + 1)).head? = some ':' then
          .error (addrError hostport tooManyColons)
        else .error (addrError hostport missingPort)
    else
      let host := s.take i
      if (indexByte host ':').isSome then .error (addrError hostport tooManyColons)
      else finish host 0 0

/-! ## The fragment of package `regexp` used by the probes

The probes compile `.*` + Expect + `.*` and call `FindString`.  Patterns written with
ordinary characters, `.` and `*` only are modelled in full (parser and leftmost-first
matcher).  What package `regexp` does with a pattern that uses any other operator is a
parameter (`RegexpRest`) of the model. -/

/-- One character position of a pattern. -/
inductive Atom where
  | lit (c : Char)
  /-- The `.` of Go regexps: any character but a newline. -/
  | dot
  deriving DecidableEq, Repr

/-- Acceptance of one input character by an atom. -/
def Atom.accepts : Atom → Char → Bool
  | .lit c, x => x == c
  | .dot, x => x != '\n'

/-- An atom, possibly under a (greedy) `*`. -/
structure Item where
  atom : Atom
  star : Bool
  deriving DecidableEq, Repr

/-- Characters of the pattern syntax that are operators other than `.` and `*`. -/
def isOtherOperator (c : Char) : Bool :=
  c == '\\' || c == '+' || c == '?' || c == '(' || c == ')' || c == '|' ||
  c == '[' || c == ']' || c == '\x7b' || c == '\x7d' || c == '^' || c == '$'

/-- Parser for patterns without other operators.  `acc` is the reversed parse so far and
`lastRepeat` tells whether the previous token was a `*`.  The result is `none` for the
two syntax errors of this fragment: a `*` with nothing to repeat and a `*` right after
a `*`. -/
def parseItems : List Char → List Item → Bool → Option (List Item)
  | [], acc, _ => some acc.reverse
  | c :: cs, acc, lastRepeat =>
    if c = '*' then
      match acc, lastRepeat with
      | [], _ => none
      | _ :: _, true => none
      | it :: rest, false => parseItems cs (⟨it.atom, true⟩ :: rest) true
    else if c = '.' then parseItems cs (⟨.dot, false⟩ :: acc) false
    else parseItems cs (⟨.lit c, false⟩ :: acc) false

/-- Greedy repetition of one atom, then the continuation `k`; the longest repetition for
which `k` succeeds is preferred, as a backtracking search finds it. -/
def matchStar (a : Atom) (k : List Char → Option (List Char)) :
    List Char → Option (List Char)
  | [] => k []
  | c :: cs =>
    if a.accepts c then
      match matchStar a k cs with
      | some m => some (c :: m)
      | none => k (c :: cs)
    else k (c :: cs)

/-- The match of the pattern anchored at the start of the input: the text matched, in the
preference order of a backtracking search. -/
def matchHere : List Item → List Char → Option (List Char)
  | [], _ => some []
  | it :: rest, s =>
    if it.star then matchStar it.atom (fun t => matchHere rest t) s
    else
      match s with
      | [] => none
      | c :: cs => if it.atom.accepts c then (matchHere rest cs).map (c :: ·) else none

/-- Leftmost match: the first start position from which the pattern matches. -/
def findFrom (items : List Item) : List Char → Option (List Char)
  | [] => matchHere items []
  | c :: cs =>
    match matchHere items (c :: cs) with
    | some m => some m
    | none => findFrom items cs

/-- The method `(*Regexp).FindString`: the text of the leftmost match, `""` without one. -/
def FindString (items : List Item) (s : String) : String :=
  match findFrom items s.toList with
  | some m => String.mk m
  | none => ""

/-- Package `regexp` on the patterns outside the modelled fragment: `none` when
`regexp.Compile` fails, else the `FindString` function of the compiled expression. -/
abbrev RegexpRest := String → Option (String → String)

/-- The call `regexp.MustCompile(pattern)`, as the `FindString` function of the result;
`none` when it panics. -/
def MustCompile (rest : RegexpRest) (pattern : String) : Option (String → String) :=
  if pattern.toList.any isOtherOperator then rest pattern
  else (parseItems pattern.toList [] false).map FindString

/-! ## The endpoint, the network and the accumulator -/

/-- The struct `NetResponse`; `Timeout` and `ReadTimeout` in nanoseconds. -/
structure NetResponse where
  Name : String
  Address : String
  Timeout : Int
  ReadTimeout : Int
  Send : String
  Expect : String
  Protocol : String
  deriving DecidableEq, Repr

/-- The constant `time.Second`. -/
def Second : Int := 1000000000

/-- Result of `net.DialTimeout`. -/
inductive DialResult where
  | connected
  /-- An error that is a `net.Error` whose `Timeout()` is true. -/
  | timeoutError
  | otherError
  deriving DecidableEq, Repr

/-- What the network and the clock answer during one probe.  The functions take what the
code passes to package `net`: the address, the timeout, the bytes written before. -/
structure Network where
  /-- The call `net.DialTimeout("tcp", address, timeout)`. -/
  dialTimeout : String → Int → DialResult
  /-- The call `tp.ReadLine()` on the connection to `address`, after `written` was sent,
  under the read deadline; `none` is an error. -/
  readLine : String → String → Int → Option String
  /-- The calls `net.ResolveUDPAddr` and `net.DialUDP` for `address`: whether `DialUDP`
  returned without error. -/
  dialUDP : String → Bool
  /-- The call `conn.ReadFromUDP(buf)`: `string(buf)` afterwards; `none` is an error. -/
  readFromUDP : String → String → Int → Option String
  /-- Reading of `time.Since(start)` right after the dial. -/
  sinceDial : Int
  /-- Reading of `time.Since(start)` right after the write. -/
  sinceSend : Int
  /-- Reading of `time.Since(start)` right after the read. -/
  sinceRead : Int

/-- Tags and fields returned by a probe. -/
abbrev ProbeResult := Tags × Fields

/-- The method `tcpGather`; `none` when `regexp.MustCompile` panics. -/
def tcpGather (rx : RegexpRest) (net : Network) (n : NetResponse) : Option ProbeResult :=
  let tags : Tags := []
  let fields : Fields := []
  let responseTime := net.sinceDial
  match net.dialTimeout n.Address n.Timeout with
  | .timeoutError =>
    let tags := tags.set "result_text" "timeout"
    let fields := fields.set "result_code" (.int 1)
    let fields := fields.set "result_type" (.str "timeout")
    some (tags, fields)
  | .otherError =>
    let tags := tags.set "result_text" "connection_failed"
    let fields := fields.set "result_code" (.int 1)
    let fields := fields.set "result_type" (.str "connection_failed")
    some (tags, fields)
  | .connected =>
    let responseTime := if n.Send ≠ "" then net.sinceSend else responseTime
    if n.Expect ≠ "" then
      let responseTime := net.sinceRead
      match net.readLine n.Address n.Send n.ReadTimeout with
      | none =>
        let tags := tags.set "result_text" "read_failed"
        let fields := fields.set "result_code" (.int 1)
        let fields := fields.set "string_found" (.bool false)
        let tags := tags.set "result_type" "read_failed"
        let fields := fields.set "success" (.int 1)
        some (tags, fields.set "response_time" (.seconds responseTime))
      | some data =>
        match MustCompile rx (".*" ++ n.Expect ++ ".*") with
        | none => none
        | some findString =>
          if findString data ≠ "" then
            let tags := tags.set "result_text" "success"
            let fields := fields.set "result_code" (.int 0)
            let fields := fields.set "result_type" (.str "success")
            let fields := fields.set "string_found" (.bool true)
            some (tags, fields.set "response_time" (.seconds responseTime))
          else
            let tags := tags.set "result_text" "string_mismatch"
            let fields := fields.set "result_code" (.int 1)
            let fields := fields.set "result_type" (.str "string_mismatch")
            let fields := fields.set "string_found" (.bool false)
            some (tags, fields.set "response_time" (.seconds responseTime))
    else
      let tags := tags.set "result_text" "success"
      let fields := fields.set "result_code" (.int 0)
      let fields := fields.set "result_type" (.str "success")
      some (tags, fields.set "response_time" (.seconds responseTime))

/-- The method `udpGather`; `none` when `regexp.MustCompile` panics. -/
def udpGather (rx : RegexpRest) (net : Network) (n : NetResponse) : Option ProbeResult :=
  let tags : Tags := []
  let fields : Fields := []
  if net.dialUDP n.Address = false then
    let tags := tags.set "result_text" "connection_failed"
    let fields := fields.set "result_code" (.int 1)
    let fields := fields.set "result_type" (.str "connection_failed")
    some (tags, fields)
  else
    let responseTime := net.sinceRead
    match net.readFromUDP n.Address n.Send n.ReadTimeout with
    | none =>
      let tags := tags.set "result_text" "read_failed"
      let fields := fields.set "result_code" (.int 1)
      let fields := fields.set "result_type" (.str "read_failed")
      some (tags, fields)
    | some buf =>
      match MustCompile rx (".*" ++ n.Expect ++ ".*") with
      | none => none
      | some findString =>
        if findString buf ≠ "" then
          let tags := tags.set "result_text" "success"
          let fields := fields.set "result_code" (.int 0)
          let fields := fields.set "result_type" (.str "success")
          let fields := fields.set "string_found" (.bool true)
          some (tags, fields.set "response_time" (.seconds responseTime))
        else
          let tags := tags.set "result_text" "string_mismatch"
          let fields := fields.set "result_code" (.int 1)
          let fields := fields.set "result_type" (.str "string_mismatch")
          let fields := fields.set "string_found" (.bool false)
          some (tags, fields.set "response_time" (.seconds responseTime))

/-- A call made on the `MetricGather` accumulator. -/
inductive AccCall where
  | AddValues (fields : Fields)
  | AddTags (tags : Tags)
  deriving DecidableEq, Repr

/-- A probe started by `gather`: which one, and the endpoint it ran on. -/
inductive ProbeCall where
  | tcp (n : NetResponse)
  | udp (n : NetResponse)
  deriving DecidableEq, Repr

/-- How a call of `gather` ends. -/
inductive Return where
  /-- It returns `nil`. -/
  | nil
  /-- It returns an error with this text. -/
  | error (msg : String)
  /-- It does not return: a probe panicked. -/
  | panic
  deriving DecidableEq, Repr

/-- Everything observable after a call of `gather`. -/
structure Run where
  ret : Return
  /-- The receiver after the call. -/
  n : NetResponse
  /-- The accumulator: the calls made on it so far, oldest first. -/
  acc : List AccCall
  /-- The probes started, oldest first. -/
  probes : List ProbeCall
  deriving DecidableEq, Repr

/-- The tail of `gather` once a probe has run: tag merge (twice, as written) and the two
accumulator calls. -/
def finishGather (n : NetResponse) (acc : List AccCall) (probe : ProbeCall)
    (tags : Tags) (res : Option ProbeResult) : Run :=
  match res with
  | none => ⟨.panic, n, acc, [probe]⟩
  | some (returnTags, fields) =>
    let tags := tags.mergeInto returnTags
    let tags := tags.mergeInto returnTags
    ⟨.nil, n, acc ++ [.AddValues fields, .AddTags tags], [probe]⟩

/-- The method `gather`, on the accumulator `acc`.  The line it prints on standard output
is not part of the model. -/
def gather (rx : RegexpRest) (net : Network) (n : NetResponse) (acc : List AccCall) : Run :=
  let n := if n.Timeout = 0 then { n with Timeout := Second } else n
  let n := if n.ReadTimeout = 0 then { n with ReadTimeout := Second } else n
  if n.Protocol = "udp" ∧ n.Send = "" then
    ⟨.error "Send string cannot be empty", n, acc, []⟩
  else if n.Protocol = "udp" ∧ n.Expect = "" then
    ⟨.error "Expected string cannot be empty", n, acc, []⟩
  else
    match SplitHostPort n.Address with
    | .error err => ⟨.error err, n, acc, []⟩
    | .ok (host, port) =>
      let n := if host = "" then { n with Address := "localhost:" ++ port } else n
      if port = "" then ⟨.error "Bad port", n, acc, []⟩
      else
        let tags : Tags := [("server", host), ("port", port)]
        if n.Protocol = "tcp" then
          finishGather n acc (.tcp n) (tags.set "protocol" "tcp") (tcpGather rx net n)
        else if n.Protocol = "udp" then
          finishGather n acc (.udp n) (tags.set "protocol" "udp") (udpGather rx net n)
        else ⟨.error "Bad protocol", n, acc, []⟩

/-! ## Concrete endpoints and networks used in the examples -/

/-- A `RegexpRest` in which no pattern with other operators compiles.  It stands in the
examples whose pattern has none, where it is never consulted. -/
def fragmentOnly : RegexpRest := fun _ => none

/-- A network with an echoing peer: every dial succeeds and what was written is read
back. -/
def echoNet : Network where
  dialTimeout := fun _ _ => .connected
  readLine := fun _ written _ => some written
  dialUDP := fun _ => true
  readFromUDP := fun _ written _ => some written
  sinceDial := 1000
  sinceSend := 2000
  sinceRead := 3000

/-- A network with nothing listening: TCP dials are refused and UDP reads fail. -/
def deadNet : Network where
  dialTimeout := fun _ _ => .otherError
  readLine := fun _ _ _ => none
  dialUDP := fun _ => true
  readFromUDP := fun _ _ _ => none
  sinceDial := 1000
  sinceSend := 2000
  sinceRead := 3000

/-- A network on which TCP connects but the peer never answers. -/
def silentNet : Network where
  dialTimeout := fun _ _ => .connected
  readLine := fun _ _ _ => none
  dialUDP := fun _ => true
  readFromUDP := fun _ _ _ => none
  sinceDial := 1000
  sinceSend := 2000
  sinceRead := 3000

/-- An endpoint with the given protocol, address, send and expect strings. -/
def endpoint (protocol address send expect : String) : NetResponse :=
  ⟨"net_response", address, 0, 0, send, expect, protocol⟩

/-! ## Vocabulary of the statements -/

/-- The endpoint after the two default-timeout statements of `gather`. -/
def withDefaults (n : NetResponse) : NetResponse :=
  let n := if n.Timeout = 0 then { n with Timeout := Second } else n
  if n.ReadTimeout = 0 then { n with ReadTimeout := Second } else n

/-- The endpoint as the probes receive it: default timeouts applied, an empty host
rewritten to `localhost`. -/
def prepared (n : NetResponse) (host port : String) : NetResponse :=
  if host = "" then { withDefaults n with Address := "localhost:" ++ port }
  else withDefaults n

/-- The tags `gather` hands over for a probe that returned `returnTags`. -/
def mergedTags (host port protocol : String) (returnTags : Tags) : Tags :=
  let tags : Tags := GoMap.set [("server", host), ("port", port)] "protocol" protocol
  (tags.mergeInto returnTags).mergeInto returnTags

/-- The method `gather` with its stages named; equal to `gather` (`gather_eq_staged`). -/
def gatherStaged (rx : RegexpRest) (net : Network) (n : NetResponse)
    (acc : List AccCall) : Run :=
  if n.Protocol = "udp" ∧ n.Send = "" then
    ⟨.error "Send string cannot be empty", withDefaults n, acc, []⟩
  else if n.Protocol = "udp" ∧ n.Expect = "" then
    ⟨.error "Expected string cannot be empty", withDefaults n, acc, []⟩
  else
    match SplitHostPort n.Address with
    | .error err => ⟨.error err, withDefaults n, acc, []⟩
    | .ok (host, port) =>
      if port = "" then ⟨.error "Bad port", prepared n host port, acc, []⟩
      else if n.Protocol = "tcp" then
        finishGather (prepared n host port) acc (.tcp (prepared n host port))
          (GoMap.set [("server", host), ("port", port)] "protocol" "tcp")
          (tcpGather rx net (prepared n host port))
      else if n.Protocol = "udp" then
        finishGather (prepared n host port) acc (.udp (prepared n host port))
          (GoMap.set [("server", host), ("port", port)] "protocol" "udp")
          (udpGather rx net (prepared n host port))
      else ⟨.error "Bad protocol", prepared n host port, acc, []⟩

/-- A failure classified before any comparison: the tag and the two fields. -/
def failureResult (cls : String) : ProbeResult :=
  ([("result_text", cls)], [("result_code", .int 1), ("result_type", .str cls)])

/-- What the read-error branch of `tcpGather` returns. -/
def tcpReadFailedResult (t : Int) : ProbeResult :=
  ([("result_text", "read_failed"), ("result_type", "read_failed")],
   [("result_code", .int 1), ("string_found", .bool false), ("success", .int 1),
    ("response_time", .seconds t)])

/-- What the probes return after comparing a response with the pattern. -/
def comparedResult (found : Bool) (t : Int) : ProbeResult :=
  if found then
    ([("result_text", "success")],
     [("result_code", .int 0), ("result_type", .str "success"),
      ("string_found", .bool true), ("response_time", .seconds t)])
  else
    ([("result_text", "string_mismatch")],
     [("result_code", .int 1), ("result_type", .str "string_mismatch"),
      ("string_found", .bool false), ("response_time", .seconds t)])

/-- What `tcpGather` returns when it connects and expects nothing. -/
def connectedResult (t : Int) : ProbeResult :=
  ([("result_text", "success")],
   [("result_code", .int 0), ("result_type", .str "success"),
    ("response_time", .seconds t)])

/-- The results `tcpGather` can return, branch by branch. -/
inductive TcpOutcome (n : NetResponse) : ProbeResult → Prop where
  | timeout : TcpOutcome n (failureResult "timeout")
  | connectionFailed : TcpOutcome n (failureResult "connection_failed")
  | readFailed (t : Int) : n.Expect ≠ "" → TcpOutcome n (tcpReadFailedResult t)
  | compared (found : Bool) (t : Int) : n.Expect ≠ "" → TcpOutcome n (comparedResult found t)
  | connected (t : Int) : n.Expect = "" → TcpOutcome n (connectedResult t)

/-- The results `udpGather` can return, branch by branch. -/
inductive UdpOutcome : ProbeResult → Prop where
  | connectionFailed : UdpOutcome (failureResult "connection_failed")
  | readFailed : UdpOutcome (failureResult "read_failed")
  | compared (found : Bool) (t : Int) : UdpOutcome (comparedResult found t)

/-- The four failure classifications. -/
def KnownFailure (t : String) : Prop :=
  t = "timeout" ∨ t = "connection_failed" ∨ t = "read_failed" ∨ t = "string_mismatch"

/-- The agreement of `result_code` with `result_text`: `0` with `success`, `1` with one
of the four failures. -/
def CodeMatchesText (tags : Tags) (fields : Fields) : Prop :=
  (tags.get "result_text" = some "success" ∧ fields.get "result_code" = some (.int 0)) ∨
  (∃ t, KnownFailure t ∧ tags.get "result_text" = some t ∧
    fields.get "result_code" = some (.int 1))

/-- An `Expect` written with ordinary characters only: no operator of the pattern
syntax. -/
def LiteralPattern (e : String) : Prop :=
  ∀ c ∈ e.toList, isOtherOperator c = false ∧ c ≠ '.' ∧ c ≠ '*'

/-- The parse of a run of ordinary characters. -/
def literalItems (cs : List Char) : List Item := cs.map (fun c => ⟨.lit c, false⟩)

/-- The parse of `.*`. -/
def dotStar : Item := ⟨.dot, true⟩

/-! ## Structure of `gather` and of the probes -/

theorem gather_eq_staged (rx : RegexpRest) (net : Network) (n : NetResponse)
    (acc : List AccCall) : gather rx net n acc = gatherStaged rx net n acc := by
  obtain ⟨name, address, timeout, readTimeout, send, expect, protocol⟩ := n
  by_cases ht : timeout = 0 <;> by_cases hr : readTimeout = 0 <;>
    simp only [gather, gatherStaged, withDefaults, prepared, ht, hr, if_true, if_false] <;>
    (split <;> [rfl; (split <;> [rfl; (split <;> [rfl; skip])])])
  all_goals
    (rename_i host port _; by_cases hh : host = "" <;> simp only [hh, if_true, if_false])

@[simp]
theorem prepared_Protocol (n : NetResponse) (host port : String) :
    (prepared n host port).Protocol = n.Protocol := by
  obtain ⟨name, address, timeout, readTimeout, send, expect, protocol⟩ := n
  by_cases ht : timeout = 0 <;> by_cases hr : readTimeout = 0 <;>
    by_cases hh : host = "" <;> simp [prepared, withDefaults, ht, hr, hh]

@[simp]
theorem prepared_Send (n : NetResponse) (host port : String) :
    (prepared n host port).Send = n.Send := by
  obtain ⟨name, address, timeout, readTimeout, send, expect, protocol⟩ := n
  by_cases ht : timeout = 0 <;> by_cases hr : readTimeout = 0 <;>
    by_cases hh : host = "" <;> simp [prepared, withDefaults, ht, hr, hh]

@[simp]
theorem prepared_Expect (n : NetResponse) (host port : String) :
    (prepared n host port).Expect = n.Expect := by
  obtain ⟨name, address, timeout, readTimeout, send, expect, protocol⟩ := n
  by_cases ht : timeout = 0 <;> by_cases hr : readTimeout = 0 <;>
    by_cases hh : host = "" <;> simp [prepared, withDefaults, ht, hr, hh]

theorem prepared_Address_of_empty_host (n : NetResponse) (port : String) :
    (prepared n "" port).Address = "localhost:" ++ port := by
  simp [prepared]

theorem tcpGather_outcome {rx : RegexpRest} {net : Network} {n : NetResponse}
    {res : ProbeResult} (h : tcpGather rx net n = some res) : TcpOutcome n res := by
  unfold tcpGather at h
  cases hd : net.dialTimeout n.Address n.Timeout
  · simp only [hd] at h
    by_cases he : n.Expect = ""
    · simp only [he, ne_eq, not_true_eq_false, if_false, Option.some.injEq] at h
      subst h
      exact .connected _ he
    · simp only [ne_eq, he, not_false_eq_true, if_true] at h
      cases hr : net.readLine n.Address n.Send n.ReadTimeout
      · simp only [hr, Option.some.injEq] at h
        subst h
        exact .readFailed _ he
      · simp only [hr] at h
        cases hc : MustCompile rx (".*" ++ n.Expect ++ ".*")
        · simp [hc] at h
        · simp only [hc] at h
          split_ifs at h with hf
          · simp only [Option.some.injEq] at h
            subst h
            exact .compared false _ he
          · simp only [Option.some.injEq] at h
            subst h
            exact .compared true _ he
  · simp only [hd, Option.some.injEq] at h
    subst h
    exact .timeout
  · simp only [hd, Option.some.injEq] at h
    subst h
    exact .connectionFailed

theorem udpGather_outcome {rx : RegexpRest} {net : Network} {n : NetResponse}
    {res : ProbeResult} (h : udpGather rx net n = some res) : UdpOutcome res := by
  unfold udpGather at h
  by_cases hd : net.dialUDP n.Address = false
  · rw [if_pos hd] at h
    simp only [Option.some.injEq] at h
    subst h
    exact .connectionFailed
  · rw [if_neg hd] at h
    cases hr : net.readFromUDP n.Address n.Send n.ReadTimeout
    · simp only [hr, Option.some.injEq] at h
      subst h
      exact .readFailed
    · simp only [hr] at h
      cases hc : MustCompile rx (".*" ++ n.Expect ++ ".*")
      · simp [hc] at h
      · simp only [hc] at h
        split_ifs at h with hf
        · simp only [Option.some.injEq] at h
          subst h
          exact .compared true _
        · simp only [Option.some.injEq] at h
          subst h
          exact .compared false _

/-- A run of `gather` that returns `nil` went through one probe, which returned, and
handed its fields and the merged tags to the accumulator. -/
theorem gather_nil_inv {rx : RegexpRest} {net : Network} {n : NetResponse}
    {acc : List AccCall} (h : (gather rx net n acc).ret = .nil) :
    ∃ (host port : String) (res : ProbeResult),
      SplitHostPort n.Address = .ok (host, port) ∧ port ≠ "" ∧
      ((n.Protocol = "tcp" ∧
          tcpGather rx net (prepared n host port) = some res ∧
          gather rx net n acc = ⟨.nil, prepared n host port,
            acc ++ [.AddValues res.2, .AddTags (mergedTags host port "tcp" res.1)],
            [.tcp (prepared n host port)]⟩) ∨
       (n.Protocol = "udp" ∧ n.Send ≠ "" ∧ n.Expect ≠ "" ∧
          udpGather rx net (prepared n host port) = some res ∧
          gather rx net n acc = ⟨.nil, prepared n host port,
            acc ++ [.AddValues res.2, .AddTags (mergedTags host port "udp" res.1)],
            [.udp (prepared n host port)]⟩)) := by
  rw [gather_eq_staged] at h ⊢
  unfold gatherStaged at h ⊢
  by_cases h1 : n.Protocol = "udp" ∧ n.Send = ""
  · rw [if_pos h1] at h; cases h
  rw [if_neg h1] at h ⊢
  by_cases h2 : n.Protocol = "udp" ∧ n.Expect = ""
  · rw [if_pos h2] at h; cases h
  rw [if_neg h2] at h ⊢
  cases hs : SplitHostPort n.Address with
  | error e => rw [hs] at h; cases h
  | ok hp =>
    obtain ⟨host, port⟩ := hp
    simp only [hs] at h ⊢
    by_cases hport : port = ""
    · rw [if_pos hport] at h; cases h
    rw [if_neg hport] at h ⊢
    by_cases htcp : n.Protocol = "tcp"
    · rw [if_pos htcp] at h ⊢
      cases hres : tcpGather rx net (prepared n host port) with
      | none => rw [hres] at h; cases h
      | some res => exact ⟨host, port, res, rfl, hport, Or.inl ⟨htcp, hres, rfl⟩⟩
    rw [if_neg htcp] at h ⊢
    by_cases hudp : n.Protocol = "udp"
    · rw [if_pos hudp] at h ⊢
      cases hres : udpGather rx net (prepared n host port) with
      | none => rw [hres] at h; cases h
      | some res =>
        exact ⟨host, port, res, rfl, hport,
          Or.inr ⟨hudp, fun hs => h1 ⟨hudp, hs⟩, fun he => h2 ⟨hudp, he⟩, hres, rfl⟩⟩
    · rw [if_neg hudp] at h; cases h

/-! ## Result code and classification -/

theorem tcpOutcome_codeMatchesText {n : NetResponse} {res : ProbeResult}
    (h : TcpOutcome n res) : CodeMatchesText res.1 res.2 := by
  cases h with
  | timeout => exact Or.inr ⟨"timeout", by simp [KnownFailure], rfl, rfl⟩
  | connectionFailed =>
    exact Or.inr ⟨"connection_failed", by simp [KnownFailure], rfl, rfl⟩
  | readFailed t he => exact Or.inr ⟨"read_failed", by simp [KnownFailure], rfl, rfl⟩
  | compared found t he =>
    cases found
    · exact Or.inr ⟨"string_mismatch", by simp [KnownFailure], rfl, rfl⟩
    · exact Or.inl ⟨rfl, rfl⟩
  | connected t he => exact Or.inl ⟨rfl, rfl⟩

theorem udpOutcome_codeMatchesText {res : ProbeResult}
    (h : UdpOutcome res) : CodeMatchesText res.1 res.2 := by
  cases h with
  | connectionFailed =>
    exact Or.inr ⟨"connection_failed", by simp [KnownFailure], rfl, rfl⟩
  | readFailed => exact Or.inr ⟨"read_failed", by simp [KnownFailure], rfl, rfl⟩
  | compared found t =>
    cases found
    · exact Or.inr ⟨"string_mismatch", by simp [KnownFailure], rfl, rfl⟩
    · exact Or.inl ⟨rfl, rfl⟩

/-- The tag merge keeps the `result_text` of the probe. -/
theorem mergedTags_result_text_of_tcp {n : NetResponse} {res : ProbeResult}
    (h : TcpOutcome n res) (host port protocol : String) :
    (mergedTags host port protocol res.1).get "result_text" = res.1.get "result_text" := by
  cases h with
  | compared found t he => cases found <;> rfl
  | _ => rfl

theorem mergedTags_result_text_of_udp {res : ProbeResult}
    (h : UdpOutcome res) (host port protocol : String) :
    (mergedTags host port protocol res.1).get "result_text" = res.1.get "result_text" := by
  cases h with
  | compared found t => cases found <;> rfl
  | _ => rfl

/-- The tag merge keeps the `server` tag set by `gather`. -/
theorem mergedTags_server_of_tcp {n : NetResponse} {res : ProbeResult}
    (h : TcpOutcome n res) (host port protocol : String) :
    (mergedTags host port protocol res.1).get "server" = some host := by
  cases h with
  | compared found t he => cases found <;> rfl
  | _ => rfl

theorem mergedTags_server_of_udp {res : ProbeResult}
    (h : UdpOutcome res) (host port protocol : String) :
    (mergedTags host port protocol res.1).get "server" = some host := by
  cases h with
  | compared found t => cases found <;> rfl
  | _ => rfl

theorem mergedTags_port_of_tcp {n : NetResponse} {res : ProbeResult}
    (h : TcpOutcome n res) (host port protocol : String) :
    (mergedTags host port protocol res.1).get "port" = some port := by
  cases h with
  | compared found t he => cases found <;> rfl
  | _ => rfl

theorem mergedTags_port_of_udp {res : ProbeResult}
    (h : UdpOutcome res) (host port protocol : String) :
    (mergedTags host port protocol res.1).get "port" = some port := by
  cases h with
  | compared found t => cases found <;> rfl
  | _ => rfl

/-- C1. Whenever `gather` returns `nil`, the fields and tags it hands to the accumulator
have `result_code` 0 together with `result_text` "success", or `result_code` 1 together
with one of timeout, connection_failed, read_failed, string_mismatch; and every result
returned by `tcpGather` or `udpGather`, on any endpoint, is of one of these two kinds. -/
theorem result_code_matches_result_text (rx : RegexpRest) (net : Network) (n : NetResponse)
    (acc : List AccCall) (h : (gather rx net n acc).ret = .nil) :
    (∃ fields tags,
      (gather rx net n acc).acc = acc ++ [.AddValues fields, .AddTags tags] ∧
      CodeMatchesText tags fields) ∧
    (∀ (m : NetResponse) (res : ProbeResult),
      tcpGather rx net m = some res ∨ udpGather rx net m = some res →
      CodeMatchesText res.1 res.2) := by
  refine ⟨?_, ?_⟩
  · obtain ⟨host, port, res, -, -, hcase⟩ := gather_nil_inv h
    rcases hcase with ⟨-, hres, hrun⟩ | ⟨-, -, -, hres, hrun⟩
    · refine ⟨_, _, by rw [hrun], ?_⟩
      have ho := tcpGather_outcome hres
      have hm := tcpOutcome_codeMatchesText ho
      unfold CodeMatchesText at hm ⊢
      rw [mergedTags_result_text_of_tcp ho]
      exact hm
    · refine ⟨_, _, by rw [hrun], ?_⟩
      have ho := udpGather_outcome hres
      have hm := udpOutcome_codeMatchesText ho
      unfold CodeMatchesText at hm ⊢
      rw [mergedTags_result_text_of_udp ho]
      exact hm
  · rintro m res (hres | hres)
    · exact tcpOutcome_codeMatchesText (tcpGather_outcome hres)
    · exact udpOutcome_codeMatchesText (udpGather_outcome hres)

/-- Instance of C1: a peer that answers the line it was sent, `Expect` equal to what is
sent. -/
theorem result_code_matches_result_text_witness :
    (gather fragmentOnly echoNet (endpoint "tcp" "127.0.0.1:2004" "test" "test") []).ret
        = .nil ∧
    ((∃ fields tags,
      (gather fragmentOnly echoNet (endpoint "tcp" "127.0.0.1:2004" "test" "test") []).acc
        = [] ++ [.AddValues fields, .AddTags tags] ∧
      CodeMatchesText tags fields) ∧
    (∀ (m : NetResponse) (res : ProbeResult),
      tcpGather fragmentOnly echoNet m = some res ∨
        udpGather fragmentOnly echoNet m = some res →
      CodeMatchesText res.1 res.2)) :=
  ⟨by decide, result_code_matches_result_text fragmentOnly echoNet
    (endpoint "tcp" "127.0.0.1:2004" "test" "test") [] (by decide)⟩



/-! ## Configuration errors -/

/-- A run that returns an error started no probe and left the accumulator as it was. -/
theorem gather_error_no_effect {rx : RegexpRest} {net : Network} {n : NetResponse}
    {acc : List AccCall} {msg : String} (h : (gather rx net n acc).ret = .error msg) :
    (gather rx net n acc).acc = acc ∧ (gather rx net n acc).probes = [] := by
  rw [gather_eq_staged] at h ⊢
  unfold gatherStaged at h ⊢
  by_cases h1 : n.Protocol = "udp" ∧ n.Send = ""
  · rw [if_pos h1]; exact ⟨rfl, rfl⟩
  rw [if_neg h1] at h ⊢
  by_cases h2 : n.Protocol = "udp" ∧ n.Expect = ""
  · rw [if_pos h2]; exact ⟨rfl, rfl⟩
  rw [if_neg h2] at h ⊢
  cases hs : SplitHostPort n.Address with
  | error e => exact ⟨rfl, rfl⟩
  | ok hp =>
    obtain ⟨host, port⟩ := hp
    simp only [hs] at h ⊢
    by_cases hport : port = ""
    · rw [if_pos hport]; exact ⟨rfl, rfl⟩
    rw [if_neg hport] at h ⊢
    by_cases htcp : n.Protocol = "tcp"
    · rw [if_pos htcp] at h
      cases hres : tcpGather rx net (prepared n host port) <;> rw [hres] at h <;> cases h
    rw [if_neg htcp] at h ⊢
    by_cases hudp : n.Protocol = "udp"
    · rw [if_pos hudp] at h
      cases hres : udpGather rx net (prepared n host port) <;> rw [hres] at h <;> cases h
    · rw [if_neg hudp]; exact ⟨rfl, rfl⟩

theorem gather_udp_send_empty (rx : RegexpRest) (net : Network) (n : NetResponse)
    (acc : List AccCall) (hudp : n.Protocol = "udp") (hs : n.Send = "") :
    (gather rx net n acc).ret = .error "Send string cannot be empty" := by
  rw [gather_eq_staged]; unfold gatherStaged
  rw [if_pos ⟨hudp, hs⟩]

theorem gather_udp_expect_empty (rx : RegexpRest) (net : Network) (n : NetResponse)
    (acc : List AccCall) (hudp : n.Protocol = "udp") (hs : n.Send ≠ "") (he : n.Expect = "") :
    (gather rx net n acc).ret = .error "Expected string cannot be empty" := by
  rw [gather_eq_staged]; unfold gatherStaged
  rw [if_neg (fun hc => hs hc.2), if_pos ⟨hudp, he⟩]

/-- A run that started a probe does not return an error: it returns `nil`, or the probe
panicked. -/
theorem gather_probe_no_error {rx : RegexpRest} {net : Network} {n : NetResponse}
    {acc : List AccCall} (h : (gather rx net n acc).probes ≠ []) :
    (gather rx net n acc).ret = .nil ∨ (gather rx net n acc).ret = .panic := by
  cases hr : (gather rx net n acc).ret with
  | nil => exact Or.inl rfl
  | panic => exact Or.inr rfl
  | error msg => exact absurd (gather_error_no_effect hr).2 h

/-- C7. With `Protocol` "udp": an empty `Send` makes `gather` fail with "Send string cannot
be empty"; a non-empty `Send` with an empty `Expect` makes it fail with "Expected string
cannot be empty"; in both cases no probe runs and the accumulator is untouched, whatever
the address and the timeouts; so a run that returns `nil` has both strings non-empty. -/
theorem udp_requires_send_and_expect (rx : RegexpRest) (net : Network) (n : NetResponse)
    (acc : List AccCall) (hudp : n.Protocol = "udp") :
    (n.Send = "" → (gather rx net n acc).ret = .error "Send string cannot be empty") ∧
    (n.Send ≠ "" → n.Expect = "" →
      (gather rx net n acc).ret = .error "Expected string cannot be empty") ∧
    (n.Send = "" ∨ n.Expect = "" →
      (gather rx net n acc).acc = acc ∧ (gather rx net n acc).probes = []) ∧
    ((gather rx net n acc).ret = .nil ∨ (gather rx net n acc).probes ≠ [] →
      n.Send ≠ "" ∧ n.Expect ≠ "") := by
  have hsend := gather_udp_send_empty rx net n acc hudp
  have hexpect := gather_udp_expect_empty rx net n acc hudp
  have herr : n.Send = "" ∨ n.Expect = "" → ∃ msg, (gather rx net n acc).ret = .error msg := by
    intro hor
    by_cases hs : n.Send = ""
    · exact ⟨_, hsend hs⟩
    · exact ⟨_, hexpect hs (hor.resolve_left hs)⟩
  refine ⟨hsend, hexpect, ?_, ?_⟩
  · intro hor
    obtain ⟨msg, hmsg⟩ := herr hor
    exact gather_error_no_effect hmsg
  · intro hrun
    by_contra hcon
    have hor : n.Send = "" ∨ n.Expect = "" := by
      by_cases hs : n.Send = ""
      · exact Or.inl hs
      · right; by_contra he; exact hcon ⟨hs, he⟩
    obtain ⟨msg, hmsg⟩ := herr hor
    rcases hrun with hnil | hp
    · rw [hmsg] at hnil; cases hnil
    · exact hp (gather_error_no_effect hmsg).2

/-- Instance of C7: the first endpoint of `TestSendExpectStrings`. -/
theorem udp_requires_send_and_expect_witness :
    (endpoint "udp" "127.0.0.1:7" "" "toast").Protocol = "udp" ∧
    (gather fragmentOnly echoNet (endpoint "udp" "127.0.0.1:7" "" "toast") []).ret
      = .error "Send string cannot be empty" :=
  ⟨rfl, (udp_requires_send_and_expect fragmentOnly echoNet
    (endpoint "udp" "127.0.0.1:7" "" "toast") [] rfl).1 rfl⟩

/-- C6, as stated, fails: with an unknown protocol and the address ":" the error is
"Bad port", and with the address "127.0.0.1" it is the address error. -/
theorem bad_protocol_counterexample :
    (endpoint "unknownprotocol" ":" "" "").Protocol ≠ "tcp" ∧
    (endpoint "unknownprotocol" ":" "" "").Protocol ≠ "udp" ∧
    (gather fragmentOnly echoNet (endpoint "unknownprotocol" ":" "" "") []).ret
      = .error "Bad port" ∧
    (gather fragmentOnly echoNet (endpoint "unknownprotocol" ":" "" "") []).ret
      ≠ .error "Bad protocol" ∧
    (gather fragmentOnly echoNet (endpoint "unknownprotocol" "127.0.0.1" "" "") []).ret
      = .error "address 127.0.0.1: missing port in address" := by
  refine ⟨by decide, by decide, by decide, by decide, by decide⟩

/-- C6, amended. With a `Protocol` that is neither "tcp" nor "udp", `gather` always
fails, starts no probe and leaves the accumulator untouched; the error is "Bad protocol"
when the address splits into a host and a non-empty port, the error of the split when
it does not split, and "Bad port" when the port is empty. -/
theorem bad_protocol_fails (rx : RegexpRest) (net : Network) (n : NetResponse)
    (acc : List AccCall) (htcp : n.Protocol ≠ "tcp") (hudp : n.Protocol ≠ "udp") :
    (∃ msg, (gather rx net n acc).ret = .error msg) ∧
    (gather rx net n acc).acc = acc ∧ (gather rx net n acc).probes = [] ∧
    (∀ host port, SplitHostPort n.Address = .ok (host, port) → port ≠ "" →
      (gather rx net n acc).ret = .error "Bad protocol") ∧
    (∀ err, SplitHostPort n.Address = .error err → (gather rx net n acc).ret = .error err) ∧
    (∀ host, SplitHostPort n.Address = .ok (host, "") →
      (gather rx net n acc).ret = .error "Bad port") := by
  have hstaged : gather rx net n acc =
      match SplitHostPort n.Address with
      | .error err => ⟨.error err, withDefaults n, acc, []⟩
      | .ok (host, port) =>
        if port = "" then ⟨.error "Bad port", prepared n host port, acc, []⟩
        else ⟨.error "Bad protocol", prepared n host port, acc, []⟩ := by
    rw [gather_eq_staged]; unfold gatherStaged
    rw [if_neg (fun hc => hudp hc.1), if_neg (fun hc => hudp hc.1)]
    split
    · rfl
    · rw [if_neg htcp, if_neg hudp]
  have herr : ∃ msg, (gather rx net n acc).ret = .error msg := by
    rw [hstaged]
    split
    · exact ⟨_, rfl⟩
    · split_ifs <;> exact ⟨_, rfl⟩
  obtain ⟨msg, hmsg⟩ := herr
  refine ⟨⟨msg, hmsg⟩, (gather_error_no_effect hmsg).1, (gather_error_no_effect hmsg).2,
    ?_, ?_, ?_⟩
  · intro host port hs hport
    rw [hstaged, hs]
    simp only [if_neg hport]
  · intro err hs
    rw [hstaged, hs]
  · intro host hs
    rw [hstaged, hs]
    simp only [if_true]

/-- Instance of C6 amended: the endpoint of `TestBadProtocol`. -/
theorem bad_protocol_fails_witness :
    (endpoint "unknownprotocol" ":9999" "" "").Protocol ≠ "tcp" ∧
    (endpoint "unknownprotocol" ":9999" "" "").Protocol ≠ "udp" ∧
    (gather fragmentOnly echoNet (endpoint "unknownprotocol" ":9999" "" "") []).ret
      = .error "Bad protocol" :=
  ⟨by decide, by decide,
    (bad_protocol_fails fragmentOnly echoNet (endpoint "unknownprotocol" ":9999" "" "") []
      (by decide) (by decide)).2.2.2.1 "" "9999" rfl (by decide)⟩

/-- C8, as stated, fails: with `Protocol` "udp", an empty `Send` and the address ":" the
error is "Send string cannot be empty", not "Bad port". -/
theorem empty_port_counterexample :
    SplitHostPort (endpoint "udp" ":" "" "toast").Address = .ok ("", "") ∧
    (gather fragmentOnly echoNet (endpoint "udp" ":" "" "toast") []).ret
      = .error "Send string cannot be empty" ∧
    (gather fragmentOnly echoNet (endpoint "udp" ":" "" "toast") []).ret
      ≠ .error "Bad port" := by
  refine ⟨rfl, by decide, by decide⟩

/-- C8, amended. When the address splits with an empty port, `gather` always fails,
starts no probe and leaves the accumulator untouched.  The error is "Bad port" unless
`Protocol` is "udp" with an empty `Send` or `Expect`; in that case the send/expect error
is returned first: "Send string cannot be empty" for an empty `Send`, and "Expected
string cannot be empty" for a non-empty `Send` with an empty `Expect`. -/
theorem empty_port_fails (rx : RegexpRest) (net : Network) (n : NetResponse)
    (acc : List AccCall) (host : String)
    (hsplit : SplitHostPort n.Address = .ok (host, "")) :
    (∃ msg, (gather rx net n acc).ret = .error msg) ∧
    (gather rx net n acc).acc = acc ∧ (gather rx net n acc).probes = [] ∧
    (¬(n.Protocol = "udp" ∧ (n.Send = "" ∨ n.Expect = "")) →
      (gather rx net n acc).ret = .error "Bad port") ∧
    (n.Protocol = "udp" → n.Send = "" →
      (gather rx net n acc).ret = .error "Send string cannot be empty") ∧
    (n.Protocol = "udp" → n.Send ≠ "" → n.Expect = "" →
      (gather rx net n acc).ret = .error "Expected string cannot be empty") := by
  have hbad : ¬(n.Protocol = "udp" ∧ (n.Send = "" ∨ n.Expect = "")) →
      (gather rx net n acc).ret = .error "Bad port" := by
    intro hno
    rw [gather_eq_staged]; unfold gatherStaged
    rw [if_neg (fun hc => hno ⟨hc.1, Or.inl hc.2⟩),
      if_neg (fun hc => hno ⟨hc.1, Or.inr hc.2⟩), hsplit]
    simp only [if_true]
  have herr : ∃ msg, (gather rx net n acc).ret = .error msg := by
    by_cases hno : n.Protocol = "udp" ∧ (n.Send = "" ∨ n.Expect = "")
    · obtain ⟨hudp, hor⟩ := hno
      by_cases hs : n.Send = ""
      · exact ⟨_, gather_udp_send_empty rx net n acc hudp hs⟩
      · exact ⟨_, gather_udp_expect_empty rx net n acc hudp hs (hor.resolve_left hs)⟩
    · exact ⟨_, hbad hno⟩
  obtain ⟨msg, hmsg⟩ := herr
  exact ⟨⟨msg, hmsg⟩, (gather_error_no_effect hmsg).1, (gather_error_no_effect hmsg).2, hbad,
    gather_udp_send_empty rx net n acc, gather_udp_expect_empty rx net n acc⟩

/-- Instances of C8 amended, all with the address ":": the endpoint of `TestNoPort` gives
"Bad port"; a udp endpoint with an empty `Send` gives the send error; a udp endpoint with
`Send` "toast" and an empty `Expect` gives the expect error. -/
theorem empty_port_fails_witness :
    SplitHostPort (endpoint "tcp" ":" "" "").Address = .ok ("", "") ∧
    (gather fragmentOnly echoNet (endpoint "tcp" ":" "" "") []).ret = .error "Bad port" ∧
    SplitHostPort (endpoint "udp" ":" "" "").Address = .ok ("", "") ∧
    (gather fragmentOnly echoNet (endpoint "udp" ":" "" "") []).ret
      = .error "Send string cannot be empty" ∧
    SplitHostPort (endpoint "udp" ":" "toast" "").Address = .ok ("", "") ∧
    (gather fragmentOnly echoNet (endpoint "udp" ":" "toast" "") []).ret
      = .error "Expected string cannot be empty" :=
  ⟨rfl,
    (empty_port_fails fragmentOnly echoNet (endpoint "tcp" ":" "" "") [] "" rfl).2.2.2.1
      (by decide),
    rfl,
    (empty_port_fails fragmentOnly echoNet (endpoint "udp" ":" "" "") [] "" rfl).2.2.2.2.1
      rfl rfl,
    rfl,
    (empty_port_fails fragmentOnly echoNet (endpoint "udp" ":" "toast" "") [] "" rfl).2.2.2.2.2
      rfl (by decide) rfl⟩

/-! ## Tags and fields of the result -/

/-- C2, at its failing input: a TCP probe that connects, expects "test" and gets a read
error.  `gather` returns `nil` and hands over fields without `result_type`; the branch
stores "read_failed" under `result_type` in the tags instead. -/
theorem tcp_read_failed_lacks_result_type :
    (gather fragmentOnly silentNet (endpoint "tcp" "127.0.0.1:2004" "test" "test") []).ret
      = .nil ∧
    (gather fragmentOnly silentNet (endpoint "tcp" "127.0.0.1:2004" "test" "test") []).acc
      = [.AddValues [("result_code", .int 1), ("string_found", .bool false),
           ("success", .int 1), ("response_time", .seconds 3000)],
         .AddTags [("server", "127.0.0.1"), ("port", "2004"), ("protocol", "tcp"),
           ("result_text", "read_failed"), ("result_type", "read_failed")]] ∧
    GoMap.get ([("result_code", .int 1), ("string_found", .bool false),
      ("success", .int 1), ("response_time", .seconds 3000)] : Fields) "result_type"
      = none := by
  refine ⟨by decide, by decide, by decide⟩

/-- Outside the read-error branch of `tcpGather`, the `result_type` field is the
`result_text` tag. -/
theorem result_type_mirrors_result_text (rx : RegexpRest) (net : Network) (n : NetResponse)
    (acc : List AccCall) (h : (gather rx net n acc).ret = .nil) :
    ∃ fields tags,
      (gather rx net n acc).acc = acc ++ [.AddValues fields, .AddTags tags] ∧
      (¬(n.Protocol = "tcp" ∧ tags.get "result_text" = some "read_failed") →
        ∃ t, tags.get "result_text" = some t ∧ fields.get "result_type" = some (.str t)) := by
  obtain ⟨host, port, res, -, -, hcase⟩ := gather_nil_inv h
  rcases hcase with ⟨htcp, hres, hrun⟩ | ⟨-, -, -, hres, hrun⟩
  · refine ⟨_, _, by rw [hrun], ?_⟩
    have ho := tcpGather_outcome hres
    rw [mergedTags_result_text_of_tcp ho]
    cases ho with
    | timeout => exact fun _ => ⟨_, rfl, rfl⟩
    | connectionFailed => exact fun _ => ⟨_, rfl, rfl⟩
    | readFailed t he => exact fun hno => absurd ⟨htcp, rfl⟩ hno
    | compared found t he => cases found <;> exact fun _ => ⟨_, rfl, rfl⟩
    | connected t he => exact fun _ => ⟨_, rfl, rfl⟩
  · refine ⟨_, _, by rw [hrun], ?_⟩
    have ho := udpGather_outcome hres
    rw [mergedTags_result_text_of_udp ho]
    cases ho with
    | connectionFailed => exact fun _ => ⟨_, rfl, rfl⟩
    | readFailed => exact fun _ => ⟨_, rfl, rfl⟩
    | compared found t => cases found <;> exact fun _ => ⟨_, rfl, rfl⟩

/-- C3, at its failing inputs: a refused TCP connect and a failed UDP read.  `gather`
returns `nil` and the fields handed over have no `response_time`. -/
theorem failed_probe_lacks_response_time :
    (gather fragmentOnly deadNet (endpoint "tcp" ":9999" "" "") []).ret = .nil ∧
    (gather fragmentOnly deadNet (endpoint "tcp" ":9999" "" "") []).acc
      = [.AddValues [("result_code", .int 1), ("result_type", .str "connection_failed")],
         .AddTags [("server", ""), ("port", "9999"), ("protocol", "tcp"),
           ("result_text", "connection_failed")]] ∧
    (gather fragmentOnly deadNet (endpoint "udp" ":9999" "test" "test") []).ret = .nil ∧
    (gather fragmentOnly deadNet (endpoint "udp" ":9999" "test" "test") []).acc
      = [.AddValues [("result_code", .int 1), ("result_type", .str "read_failed")],
         .AddTags [("server", ""), ("port", "9999"), ("protocol", "udp"),
           ("result_text", "read_failed")]] ∧
    GoMap.get ([("result_code", .int 1), ("result_type", .str "connection_failed")] : Fields)
      "response_time" = none ∧
    GoMap.get ([("result_code", .int 1), ("result_type", .str "read_failed")] : Fields)
      "response_time" = none := by
  refine ⟨by decide, by decide, by decide, by decide, by decide, by decide⟩

/-- The `response_time` field is present exactly on the branches that run to the end of
the probe: success, string_mismatch and the read error of `tcpGather`. -/
theorem response_time_presence (rx : RegexpRest) (net : Network) (n : NetResponse)
    (acc : List AccCall) (h : (gather rx net n acc).ret = .nil) :
    ∃ fields tags,
      (gather rx net n acc).acc = acc ++ [.AddValues fields, .AddTags tags] ∧
      (fields.get "response_time" ≠ none ↔
        tags.get "result_text" = some "success" ∨
        tags.get "result_text" = some "string_mismatch" ∨
        (n.Protocol = "tcp" ∧ tags.get "result_text" = some "read_failed")) := by
  obtain ⟨host, port, res, -, -, hcase⟩ := gather_nil_inv h
  rcases hcase with ⟨htcp, hres, hrun⟩ | ⟨hudp, -, -, hres, hrun⟩
  · refine ⟨_, _, by rw [hrun], ?_⟩
    have ho := tcpGather_outcome hres
    rw [mergedTags_result_text_of_tcp ho]
    cases ho with
    | compared found t he =>
      cases found <;> simp [comparedResult, GoMap.get]
    | _ => simp [failureResult, tcpReadFailedResult, connectedResult, GoMap.get, htcp]
  · refine ⟨_, _, by rw [hrun], ?_⟩
    have ho := udpGather_outcome hres
    rw [mergedTags_result_text_of_udp ho]
    cases ho with
    | compared found t =>
      cases found <;> simp [comparedResult, GoMap.get]
    | _ => simp [failureResult, GoMap.get, hudp]

/-- C4, as stated, fails: for the address ":9999" (empty host, port "9999") the `server`
tag handed over is the empty string, not "localhost". -/
theorem empty_host_counterexample :
    SplitHostPort (endpoint "tcp" ":9999" "" "").Address = .ok ("", "9999") ∧
    (gather fragmentOnly deadNet (endpoint "tcp" ":9999" "" "") []).ret = .nil ∧
    (gather fragmentOnly deadNet (endpoint "tcp" ":9999" "" "") []).acc
      = [.AddValues [("result_code", .int 1), ("result_type", .str "connection_failed")],
         .AddTags [("server", ""), ("port", "9999"), ("protocol", "tcp"),
           ("result_text", "connection_failed")]] ∧
    GoMap.get ([("server", ""), ("port", "9999"), ("protocol", "tcp"),
      ("result_text", "connection_failed")] : Tags) "server" ≠ some "localhost" := by
  refine ⟨rfl, by decide, by decide, by decide⟩

/-- C4, amended. When the address splits into an empty host and a port and `gather`
returns `nil`, the `server` tag handed over is the empty string; what is rewritten to
`localhost:port` is the address of the endpoint, on which the probe ran. -/
theorem empty_host_server_tag (rx : RegexpRest) (net : Network) (n : NetResponse)
    (acc : List AccCall) (port : String)
    (hsplit : SplitHostPort n.Address = .ok ("", port))
    (h : (gather rx net n acc).ret = .nil) :
    (∃ fields tags,
      (gather rx net n acc).acc = acc ++ [.AddValues fields, .AddTags tags] ∧
      tags.get "server" = some "" ∧ tags.get "port" = some port) ∧
    (gather rx net n acc).n.Address = "localhost:" ++ port ∧
    ((gather rx net n acc).probes = [.tcp (gather rx net n acc).n] ∨
      (gather rx net n acc).probes = [.udp (gather rx net n acc).n]) := by
  obtain ⟨host, port', res, hs, -, hcase⟩ := gather_nil_inv h
  rw [hsplit] at hs
  injection hs with hs
  injection hs with hh hp
  subst hh; subst hp
  rcases hcase with ⟨-, hres, hrun⟩ | ⟨-, -, -, hres, hrun⟩
  · have ho := tcpGather_outcome hres
    rw [hrun]
    exact ⟨⟨_, _, rfl, mergedTags_server_of_tcp ho _ _ _, mergedTags_port_of_tcp ho _ _ _⟩,
      prepared_Address_of_empty_host n _, Or.inl rfl⟩
  · have ho := udpGather_outcome hres
    rw [hrun]
    exact ⟨⟨_, _, rfl, mergedTags_server_of_udp ho _ _ _, mergedTags_port_of_udp ho _ _ _⟩,
      prepared_Address_of_empty_host n _, Or.inr rfl⟩

/-- Instance of C4 amended: the endpoint of `TestTCPError`. -/
theorem empty_host_server_tag_witness :
    SplitHostPort (endpoint "tcp" ":9999" "" "").Address = .ok ("", "9999") ∧
    (gather fragmentOnly deadNet (endpoint "tcp" ":9999" "" "") []).ret = .nil ∧
    (gather fragmentOnly deadNet (endpoint "tcp" ":9999" "" "") []).n.Address
      = "localhost:" ++ "9999" :=
  ⟨rfl, by decide,
    (empty_host_server_tag fragmentOnly deadNet (endpoint "tcp" ":9999" "" "") [] "9999"
      rfl (by decide)).2.1⟩

/-- C9, at its failing input: a TCP endpoint with `Expect` "*" whose peer answers.
`gather` starts `tcpGather`, which panics in `regexp.MustCompile` on the pattern `.**.*`,
so `gather` does not return `nil`; the accumulator is untouched. -/
theorem probe_panics_on_bad_pattern :
    MustCompile fragmentOnly (".*" ++ "*" ++ ".*") = none ∧
    tcpGather fragmentOnly echoNet
      (prepared (endpoint "tcp" "127.0.0.1:2004" "test" "*") "127.0.0.1" "2004") = none ∧
    gather fragmentOnly echoNet (endpoint "tcp" "127.0.0.1:2004" "test" "*") []
      = ⟨.panic, prepared (endpoint "tcp" "127.0.0.1:2004" "test" "*") "127.0.0.1" "2004",
         [], [.tcp (prepared (endpoint "tcp" "127.0.0.1:2004" "test" "*") "127.0.0.1" "2004")]⟩
      := by
  refine ⟨rfl, rfl, by decide⟩

/-- C10, as stated, fails: on a TCP read error the classification is read_failed and the
`string_found` field is present (false). -/
theorem string_found_counterexample :
    (gather fragmentOnly silentNet (endpoint "tcp" "127.0.0.1:2004" "test" "test") []).ret
      = .nil ∧
    (gather fragmentOnly silentNet (endpoint "tcp" "127.0.0.1:2004" "test" "test") []).acc
      = [.AddValues [("result_code", .int 1), ("string_found", .bool false),
           ("success", .int 1), ("response_time", .seconds 3000)],
         .AddTags [("server", "127.0.0.1"), ("port", "2004"), ("protocol", "tcp"),
           ("result_text", "read_failed"), ("result_type", "read_failed")]] ∧
    GoMap.get ([("result_code", .int 1), ("string_found", .bool false),
      ("success", .int 1), ("response_time", .seconds 3000)] : Fields) "string_found"
      = some (.bool false) := by
  refine ⟨by decide, by decide, by decide⟩

/-- C10, amended. In every result `gather` produces, `string_found` is present exactly
when the classification is string_mismatch, success with a non-empty `Expect`, or the
read_failed of a TCP probe; it is true exactly on success.  It is absent for timeout,
connection_failed, the read_failed of a UDP probe and a TCP success with empty
`Expect`. -/
theorem string_found_presence (rx : RegexpRest) (net : Network) (n : NetResponse)
    (acc : List AccCall) (h : (gather rx net n acc).ret = .nil) :
    ∃ fields tags,
      (gather rx net n acc).acc = acc ++ [.AddValues fields, .AddTags tags] ∧
      (fields.get "string_found" ≠ none ↔
        tags.get "result_text" = some "string_mismatch" ∨
        (tags.get "result_text" = some "success" ∧ n.Expect ≠ "") ∨
        (n.Protocol = "tcp" ∧ tags.get "result_text" = some "read_failed")) ∧
      (fields.get "string_found" = some (.bool true) ↔
        (tags.get "result_text" = some "success" ∧ n.Expect ≠ "")) ∧
      (fields.get "string_found" = none ∨ fields.get "string_found" = some (.bool true) ∨
        fields.get "string_found" = some (.bool false)) := by
  obtain ⟨host, port, res, -, -, hcase⟩ := gather_nil_inv h
  rcases hcase with ⟨htcp, hres, hrun⟩ | ⟨hudp, -, hexp, hres, hrun⟩
  · refine ⟨_, _, by rw [hrun], ?_⟩
    have ho := tcpGather_outcome hres
    rw [mergedTags_result_text_of_tcp ho]
    cases ho with
    | compared found t he =>
      rw [prepared_Expect] at he
      cases found <;> simp [comparedResult, GoMap.get, he]
    | readFailed t he => simp [tcpReadFailedResult, GoMap.get, htcp]
    | connected t he =>
      rw [prepared_Expect] at he
      simp [connectedResult, GoMap.get, he]
    | _ => simp [failureResult, GoMap.get]
  · refine ⟨_, _, by rw [hrun], ?_⟩
    have ho := udpGather_outcome hres
    rw [mergedTags_result_text_of_udp ho]
    cases ho with
    | compared found t =>
      cases found <;> simp [comparedResult, GoMap.get, hexp]
    | _ => simp [failureResult, GoMap.get, hudp]

/-- Instance of C10 amended: a peer that answers the line it was sent, `Expect` equal to
what is sent. -/
theorem string_found_presence_witness :
    (gather fragmentOnly echoNet (endpoint "tcp" "127.0.0.1:2004" "test" "test") []).ret
        = .nil ∧
    ∃ fields tags,
      (gather fragmentOnly echoNet (endpoint "tcp" "127.0.0.1:2004" "test" "test") []).acc
        = [] ++ [.AddValues fields, .AddTags tags] ∧
      (fields.get "string_found" ≠ none ↔
        tags.get "result_text" = some "string_mismatch" ∨
        (tags.get "result_text" = some "success" ∧
          (endpoint "tcp" "127.0.0.1:2004" "test" "test").Expect ≠ "") ∨
        ((endpoint "tcp" "127.0.0.1:2004" "test" "test").Protocol = "tcp" ∧
          tags.get "result_text" = some "read_failed")) ∧
      (fields.get "string_found" = some (.bool true) ↔
        (tags.get "result_text" = some "success" ∧
          (endpoint "tcp" "127.0.0.1:2004" "test" "test").Expect ≠ "")) ∧
      (fields.get "string_found" = none ∨ fields.get "string_found" = some (.bool true) ∨
        fields.get "string_found" = some (.bool false)) :=
  ⟨by decide, string_found_presence fragmentOnly echoNet
    (endpoint "tcp" "127.0.0.1:2004" "test" "test") [] (by decide)⟩


/-! ## Matching a literal `Expect` -/

theorem parseItems_literals (cs rest : List Char) (acc : List Item) (b : Bool)
    (h : ∀ c ∈ cs, c ≠ '.' ∧ c ≠ '*') :
    parseItems (cs ++ rest) acc b =
      parseItems rest ((literalItems cs).reverse ++ acc) (if cs = [] then b else false) := by
  induction cs generalizing acc b with
  | nil => simp [literalItems]
  | cons c cs ih =>
    have hc := h c (List.mem_cons_self _ _)
    have hrest : ∀ x ∈ cs, x ≠ '.' ∧ x ≠ '*' := fun x hx => h x (List.mem_cons_of_mem _ hx)
    have hstep : parseItems (c :: cs ++ rest) acc b =
        parseItems (cs ++ rest) (⟨.lit c, false⟩ :: acc) false := by
      show parseItems (c :: (cs ++ rest)) acc b = _
      simp only [parseItems, if_neg hc.2, if_neg hc.1]
    rw [hstep, ih _ _ hrest]
    by_cases hcs : cs = [] <;> simp [hcs, literalItems]

theorem parseItems_wrapped (e : List Char) (h : ∀ c ∈ e, c ≠ '.' ∧ c ≠ '*') :
    parseItems ('.' :: '*' :: (e ++ ['.', '*'])) [] false =
      some (dotStar :: (literalItems e ++ [dotStar])) := by
  have h1 : parseItems ('.' :: '*' :: (e ++ ['.', '*'])) [] false =
      parseItems (e ++ ['.', '*']) [dotStar] true := by
    simp [parseItems, dotStar]
  rw [h1, parseItems_literals e _ _ _ h]
  simp [parseItems, dotStar]

theorem matchStar_prefix (a : Atom) (k : List Char → Option (List Char))
    (hk : ∀ t m, k t = some m → m <+: t) :
    ∀ s m, matchStar a k s = some m → m <+: s := by
  intro s
  induction s with
  | nil => intro m hm; exact hk _ _ hm
  | cons c cs ih =>
    intro m hm
    unfold matchStar at hm
    split_ifs at hm with hacc
    · cases hrec : matchStar a k cs with
      | none => rw [hrec] at hm; exact hk _ _ hm
      | some m0 =>
        rw [hrec] at hm
        simp only [Option.some.injEq] at hm
        subst hm
        exact (List.prefix_cons_inj c).mpr (ih m0 hrec)
    · exact hk _ _ hm

theorem matchHere_prefix (items : List Item) :
    ∀ s m, matchHere items s = some m → m <+: s := by
  induction items with
  | nil =>
    intro s m hm
    simp only [matchHere, Option.some.injEq] at hm
    subst hm
    exact List.nil_prefix
  | cons it rest ih =>
    intro s m hm
    unfold matchHere at hm
    split_ifs at hm with hstar
    · exact matchStar_prefix it.atom _ ih s m hm
    · cases s with
      | nil => simp at hm
      | cons c cs =>
        simp only at hm
        split_ifs at hm with hacc
        cases hrec : matchHere rest cs with
        | none => rw [hrec] at hm; simp at hm
        | some m0 =>
          rw [hrec] at hm
          simp only [Option.map_some', Option.some.injEq] at hm
          subst hm
          exact (List.prefix_cons_inj c).mpr (ih cs m0 hrec)

theorem matchStar_split (a : Atom) (k : List Char → Option (List Char)) :
    ∀ s m, matchStar a k s = some m →
      ∃ pre m0 t, m = pre ++ m0 ∧ k t = some m0 := by
  intro s
  induction s with
  | nil => intro m hm; exact ⟨[], m, [], rfl, hm⟩
  | cons c cs ih =>
    intro m hm
    unfold matchStar at hm
    split_ifs at hm with hacc
    · cases hrec : matchStar a k cs with
      | none => rw [hrec] at hm; exact ⟨[], m, c :: cs, rfl, hm⟩
      | some m0 =>
        rw [hrec] at hm
        simp only [Option.some.injEq] at hm
        subst hm
        obtain ⟨pre, m1, t, hm1, hk⟩ := ih m0 hrec
        exact ⟨c :: pre, m1, t, by rw [hm1]; rfl, hk⟩
    · exact ⟨[], m, c :: cs, rfl, hm⟩

theorem matchHere_literals_prefix (e : List Char) (rest : List Item) :
    ∀ s m, matchHere (literalItems e ++ rest) s = some m → e <+: m := by
  induction e with
  | nil => intro s m _; exact List.nil_prefix
  | cons c e ih =>
    intro s m hm
    simp only [literalItems, List.map_cons, List.cons_append] at hm
    unfold matchHere at hm
    simp only [Bool.false_eq_true, if_false] at hm
    cases s with
    | nil => simp at hm
    | cons x xs =>
      simp only [Atom.accepts] at hm
      split_ifs at hm with hacc
      cases hrec : matchHere (List.map (fun c => (⟨.lit c, false⟩ : Item)) e ++ rest) xs with
      | none => rw [hrec] at hm; simp at hm
      | some m0 =>
        rw [hrec] at hm
        simp only [Option.map_some', Option.some.injEq] at hm
        subst hm
        have hx : x = c := by simpa using hacc
        subst hx
        exact (List.prefix_cons_inj x).mpr (ih xs m0 hrec)

theorem matchStar_isSome (a : Atom) (k : List Char → Option (List Char)) (s : List Char)
    (hk : (k s).isSome) : (matchStar a k s).isSome := by
  cases s with
  | nil => simpa [matchStar] using hk
  | cons c cs =>
    unfold matchStar
    split_ifs
    · cases matchStar a k cs with
      | none => exact hk
      | some m0 => rfl
    · exact hk

theorem matchHere_literals_isSome (e q : List Char) :
    (matchHere (literalItems e ++ [dotStar]) (e ++ q)).isSome := by
  induction e with
  | nil =>
    simp only [literalItems, List.map_nil, List.nil_append]
    unfold matchHere
    simp only [dotStar, if_true]
    exact matchStar_isSome _ _ _ (by simp [matchHere])
  | cons c e ih =>
    simp only [literalItems, List.map_cons, List.cons_append]
    unfold matchHere
    simp only [Bool.false_eq_true, if_false, Atom.accepts, beq_self_eq_true, if_true]
    cases hrec : matchHere (List.map (fun c => (⟨.lit c, false⟩ : Item)) e ++ [dotStar]) (e ++ q) with
    | none =>
      have := ih
      simp only [literalItems] at this
      rw [hrec] at this
      exact absurd this (by simp)
    | some m0 => rfl

theorem findFrom_suffix (items : List Item) :
    ∀ s m, findFrom items s = some m → ∃ t, t <:+ s ∧ matchHere items t = some m := by
  intro s
  induction s with
  | nil => intro m hm; exact ⟨[], List.suffix_refl _, hm⟩
  | cons c cs ih =>
    intro m hm
    unfold findFrom at hm
    cases hrec : matchHere items (c :: cs) with
    | some m0 =>
      rw [hrec] at hm
      simp only [Option.some.injEq] at hm
      subst hm
      exact ⟨c :: cs, List.suffix_refl _, hrec⟩
    | none =>
      rw [hrec] at hm
      obtain ⟨t, ht, hmt⟩ := ih m hm
      exact ⟨t, ht.trans (List.suffix_cons c cs), hmt⟩

theorem findFrom_isSome (items : List Item) :
    ∀ s t, t <:+ s → (matchHere items t).isSome → (findFrom items s).isSome := by
  intro s
  induction s with
  | nil =>
    intro t ht hm
    have : t = [] := List.eq_nil_of_suffix_nil ht
    subst this
    exact hm
  | cons c cs ih =>
    intro t ht hm
    unfold findFrom
    cases hrec : matchHere items (c :: cs) with
    | some m0 => rfl
    | none =>
      simp only
      rcases List.suffix_cons_iff.mp ht with heq | hsuf
      · subst heq; rw [hrec] at hm; exact absurd hm (by simp)
      · exact ih t hsuf hm

/-- On a pattern `.*e.*` with `e` ordinary and non-empty, `FindString` returns a
non-empty match exactly when the input contains `e`. -/
theorem findString_wrapped_literal (e : List Char) (he : e ≠ []) (data : String) :
    FindString (dotStar :: (literalItems e ++ [dotStar])) data ≠ "" ↔ e <:+: data.toList := by
  unfold FindString
  constructor
  · intro h
    cases hf : findFrom (dotStar :: (literalItems e ++ [dotStar])) data.toList with
    | none => rw [hf] at h; exact absurd rfl h
    | some m =>
      obtain ⟨t, ht, hm⟩ := findFrom_suffix _ _ _ hf
      have hpre := matchHere_prefix _ _ _ hm
      unfold matchHere at hm
      simp only [dotStar, if_true] at hm
      obtain ⟨pre, m0, u, hsplit, hk⟩ := matchStar_split _ _ _ _ hm
      have he_m0 := matchHere_literals_prefix e _ u m0 hk
      have h1 : e <:+: m := by
        rw [hsplit]
        exact (he_m0.isInfix).trans (List.suffix_append pre m0).isInfix
      exact h1.trans (hpre.isInfix.trans ht.isInfix)
  · intro h
    obtain ⟨p, q, hpq⟩ := h
    have hsome : (findFrom (dotStar :: (literalItems e ++ [dotStar])) data.toList).isSome := by
      apply findFrom_isSome _ _ (e ++ q)
      · rw [← hpq]; exact ⟨p, by simp⟩
      · unfold matchHere
        simp only [dotStar, if_true]
        exact matchStar_isSome _ _ _ (matchHere_literals_isSome e q)
    cases hf : findFrom (dotStar :: (literalItems e ++ [dotStar])) data.toList with
    | none => rw [hf] at hsome; exact absurd hsome (by simp)
    | some m =>
      simp only
      obtain ⟨t, ht, hm⟩ := findFrom_suffix _ _ _ hf
      unfold matchHere at hm
      simp only [dotStar, if_true] at hm
      obtain ⟨pre, m0, u, hsplit, hk⟩ := matchStar_split _ _ _ _ hm
      have he_m0 := matchHere_literals_prefix e _ u m0 hk
      intro hcon
      have hm_nil : m = [] := by
        have := congrArg String.toList hcon
        simpa using this
      rw [hm_nil] at hsplit
      have hm0 : m0 = [] := by
        have := congrArg List.length hsplit
        simp only [List.length_nil, List.length_append] at this
        exact List.length_eq_zero.mp (by omega)
      rw [hm0] at he_m0
      exact he (List.eq_nil_of_prefix_nil he_m0) -- e = []


theorem mustCompile_wrapped_literal (rx : RegexpRest) (e : String) (h : LiteralPattern e) :
    MustCompile rx (".*" ++ e ++ ".*") =
      some (FindString (dotStar :: (literalItems e.toList ++ [dotStar]))) := by
  have hlist : (".*" ++ e ++ ".*").toList = '.' :: '*' :: (e.toList ++ ['.', '*']) := by
    simp [String.toList]
  have hany : (".*" ++ e ++ ".*").toList.any isOtherOperator = false := by
    rw [hlist]
    simp only [List.any_cons, List.any_append, List.any_nil, Bool.or_false, Bool.or_eq_false_iff]
    refine ⟨by decide, by decide, ?_, by decide, by decide⟩
    rw [List.any_eq_false]
    intro c hc
    simp [(h c hc).1]
  unfold MustCompile
  rw [hany, hlist, parseItems_wrapped _ (fun c hc => (h c hc).2)]
  simp

/-- C5, at its failing input: a TCP endpoint with `Expect` "." whose peer answers the line
"a".  The line does not contain ".", yet `tcpGather` compiles `.*..*` unescaped, finds the
match "a", and `gather` hands over success with `string_found` true. -/
theorem expect_dot_succeeds_without_substring :
    (endpoint "tcp" "127.0.0.1:2004" "a" ".").Expect ≠ "" ∧
    echoNet.dialTimeout "127.0.0.1:2004" Second = .connected ∧
    echoNet.readLine "127.0.0.1:2004" "a" Second = some "a" ∧
    ¬ (".".toList <:+: "a".toList) ∧
    (gather fragmentOnly echoNet (endpoint "tcp" "127.0.0.1:2004" "a" ".") []).ret = .nil ∧
    (gather fragmentOnly echoNet (endpoint "tcp" "127.0.0.1:2004" "a" ".") []).acc
      = [.AddValues [("result_code", .int 0), ("result_type", .str "success"),
           ("string_found", .bool true), ("response_time", .seconds 3000)],
         .AddTags [("server", "127.0.0.1"), ("port", "2004"), ("protocol", "tcp"),
           ("result_text", "success")]] := by
  refine ⟨by decide, rfl, rfl, by decide, by decide, by decide⟩

/-- Where the substring reading does hold: for a TCP endpoint whose `Expect` is non-empty
and written with characters that are ordinary in every position of a pattern (a
sufficient condition), when the connect succeeds and a response line is read without
error, `gather` returns `nil` and classifies the result as success with `string_found`
true if the line contains `Expect` as a substring, and as string_mismatch with
`string_found` false if it does not. -/
theorem tcp_literal_expect_is_contains (rx : RegexpRest) (net : Network) (n : NetResponse)
    (acc : List AccCall) (host port data : String)
    (hproto : n.Protocol = "tcp") (hexp : n.Expect ≠ "") (hlit : LiteralPattern n.Expect)
    (hsplit : SplitHostPort n.Address = .ok (host, port)) (hport : port ≠ "")
    (hdial : net.dialTimeout (prepared n host port).Address (prepared n host port).Timeout
      = .connected)
    (hread : net.readLine (prepared n host port).Address n.Send
      (prepared n host port).ReadTimeout = some data) :
    ∃ fields tags,
      gather rx net n acc = ⟨.nil, prepared n host port,
        acc ++ [.AddValues fields, .AddTags tags], [.tcp (prepared n host port)]⟩ ∧
      (n.Expect.toList <:+: data.toList →
        tags.get "result_text" = some "success" ∧
        fields.get "result_type" = some (.str "success") ∧
        fields.get "result_code" = some (.int 0) ∧
        fields.get "string_found" = some (.bool true)) ∧
      (¬ n.Expect.toList <:+: data.toList →
        tags.get "result_text" = some "string_mismatch" ∧
        fields.get "result_type" = some (.str "string_mismatch") ∧
        fields.get "result_code" = some (.int 1) ∧
        fields.get "string_found" = some (.bool false)) := by
  have hne : n.Expect.toList ≠ [] := by
    intro hnil
    apply hexp
    cases hE : n.Expect with
    | mk l => rw [hE] at hnil; simp only [String.toList] at hnil; rw [hnil]
  have hfind := findString_wrapped_literal n.Expect.toList hne data
  have hprobe : tcpGather rx net (prepared n host port) =
      some (comparedResult (decide (n.Expect.toList <:+: data.toList)) net.sinceRead) := by
    unfold tcpGather
    rw [hdial]
    simp only [prepared_Expect, prepared_Send, ne_eq, hexp, not_false_eq_true, if_true, hread,
      mustCompile_wrapped_literal rx n.Expect hlit]
    by_cases hin : n.Expect.toList <:+: data.toList
    · rw [if_pos (hfind.mpr hin), decide_eq_true hin]
      rfl
    · rw [if_neg (fun hc => hin (hfind.mp hc)), decide_eq_false hin]
      rfl
  have hrun : gather rx net n acc = ⟨.nil, prepared n host port,
      acc ++ [.AddValues
          (comparedResult (decide (n.Expect.toList <:+: data.toList)) net.sinceRead).2,
        .AddTags (mergedTags host port "tcp"
          (comparedResult (decide (n.Expect.toList <:+: data.toList)) net.sinceRead).1)],
      [.tcp (prepared n host port)]⟩ := by
    rw [gather_eq_staged]
    unfold gatherStaged
    have hnotudp : ¬ n.Protocol = "udp" := by rw [hproto]; decide
    rw [if_neg (fun hc => hnotudp hc.1), if_neg (fun hc => hnotudp hc.1), hsplit]
    simp only [if_neg hport, if_pos hproto, hprobe]
    rfl
  refine ⟨_, _, hrun, ?_, ?_⟩
  · intro hin
    simp only [hin, decide_True]
    exact ⟨rfl, rfl, rfl, rfl⟩
  · intro hin
    simp only [hin, decide_False]
    exact ⟨rfl, rfl, rfl, rfl⟩

/-- An instance: the endpoint of `TestTCPOK1`, with a peer that answers the line it was
sent. -/
theorem tcp_literal_expect_is_contains_witness :
    (endpoint "tcp" "127.0.0.1:2004" "test" "test").Protocol = "tcp" ∧
    (endpoint "tcp" "127.0.0.1:2004" "test" "test").Expect ≠ "" ∧
    LiteralPattern (endpoint "tcp" "127.0.0.1:2004" "test" "test").Expect ∧
    SplitHostPort (endpoint "tcp" "127.0.0.1:2004" "test" "test").Address
      = .ok ("127.0.0.1", "2004") ∧
    ∃ fields tags,
      gather fragmentOnly echoNet (endpoint "tcp" "127.0.0.1:2004" "test" "test") []
        = ⟨.nil, prepared (endpoint "tcp" "127.0.0.1:2004" "test" "test") "127.0.0.1" "2004",
          [] ++ [.AddValues fields, .AddTags tags],
          [.tcp (prepared (endpoint "tcp" "127.0.0.1:2004" "test" "test")
            "127.0.0.1" "2004")]⟩ ∧
      (("test".toList <:+: "test".toList) →
        tags.get "result_text" = some "success" ∧
        fields.get "result_type" = some (.str "success") ∧
        fields.get "result_code" = some (.int 0) ∧
        fields.get "string_found" = some (.bool true)) ∧
      (¬ ("test".toList <:+: "test".toList) →
        tags.get "result_text" = some "string_mismatch" ∧
        fields.get "result_type" = some (.str "string_mismatch") ∧
        fields.get "result_code" = some (.int 1) ∧
        fields.get "string_found" = some (.bool false)) :=
  ⟨rfl, by decide, by unfold LiteralPattern; decide, rfl,
    tcp_literal_expect_is_contains fragmentOnly echoNet
      (endpoint "tcp" "127.0.0.1:2004" "test" "test") [] "127.0.0.1" "2004" "test"
      rfl (by decide) (by unfold LiteralPattern; decide) rfl (by decide) rfl rfl⟩

end NetResponder
